import Mathlib

/-!
Shallow embedding of the NFT-Royalty-Distribution-Platform backend
(`src/Python Backend/app.py` and `src/Python Backend/contract_handler.py`).

The external chain-client library (web3.py) and the remote node are modelled
by an explicit environment record (`Env`) supplying the outcome of every
library primitive the code invokes (call, estimate gas, nonce lookup,
sign-and-send, receipt lookup, log filtering, chain metadata).  Fallible
Python code is embedded as `Except String`, where the error string is the
`str(e)` of the raised exception.  Python `bytes` are `List (Fin 256)`,
Python floats (used only in the gas-padding expression `int(gas_limit * 1.2)`)
are modelled exactly as IEEE-754 binary64 via integer rounding.
-/

namespace NFTBackend

/-! ### Hex encoding (Python `bytes.hex()`) and its inverse -/

/-- Lowercase hex digit for a value below 16, as produced by `bytes.hex()`:
`0`-`9` are code points 48-57, `a`-`f` are 97-102. -/
def hexDigitChar (n : Nat) : Char :=
  if n < 10 then Char.ofNat (48 + n) else Char.ofNat (87 + n)

/-- The two lowercase hex characters of one byte (high nibble first). -/
def byteHexChars (b : Fin 256) : List Char :=
  [hexDigitChar (b.val / 16), hexDigitChar (b.val % 16)]

/-- Python `bytes.hex()`: lowercase hex, two characters per byte, no `0x`. -/
def bytesHex (bs : List (Fin 256)) : String :=
  ⟨(bs.map byteHexChars).flatten⟩

/-- Value of one lowercase hex character, `Option.none` on any other char. -/
def hexDigitVal (c : Char) : Option (Fin 16) :=
  if h : 48 ≤ c.toNat ∧ c.toNat ≤ 57 then some ⟨c.toNat - 48, by omega⟩
  else if h' : 97 ≤ c.toNat ∧ c.toNat ≤ 102 then some ⟨c.toNat - 87, by omega⟩
  else Option.none

/-- Decode a list of hex characters, two per byte; fails on a stray
character or an odd length. -/
def hexCharsDecode : List Char → Option (List (Fin 256))
  | [] => some []
  | [_] => Option.none
  | c1 :: c2 :: rest => do
      let h ← hexDigitVal c1
      let l ← hexDigitVal c2
      let tail ← hexCharsDecode rest
      pure (⟨16 * h.val + l.val, by omega⟩ :: tail)

/-- Decode a hex string back to bytes (inverse of `bytesHex`). -/
def hexDecode (s : String) : Option (List (Fin 256)) :=
  hexCharsDecode s.data

/-- A character is a lowercase hexadecimal digit (`0`-`9` or `a`-`f`). -/
def isLowerHexChar (c : Char) : Bool :=
  (48 ≤ c.toNat && c.toNat ≤ 57) || (97 ≤ c.toNat && c.toNat ≤ 102)

theorem hexDigitChar_isLowerHex_fin :
    ∀ m : Fin 16, isLowerHexChar (hexDigitChar m.val) = true := by decide

theorem hexDigitVal_hexDigitChar_fin :
    ∀ m : Fin 16, hexDigitVal (hexDigitChar m.val) = some m := by decide

theorem hexDigitVal_hexDigitChar (n : Nat) (hn : n < 16) :
    hexDigitVal (hexDigitChar n) = some ⟨n, hn⟩ :=
  hexDigitVal_hexDigitChar_fin ⟨n, hn⟩

theorem bytesHex_isLowerHex (bs : List (Fin 256)) :
    ∀ c ∈ (bytesHex bs).data, isLowerHexChar c = true := by
  induction bs with
  | nil => intro c hc; simp [bytesHex] at hc
  | cons b tl ih =>
      intro c hc
      have hhi : b.val / 16 < 16 := Nat.div_lt_of_lt_mul (by omega)
      have hlo : b.val % 16 < 16 := Nat.mod_lt _ (by omega)
      have hc' : c ∈ byteHexChars b ++ (tl.map byteHexChars).flatten := by
        simpa [bytesHex] using hc
      rcases List.mem_append.mp hc' with hc1 | hc2
      · simp only [byteHexChars, List.mem_cons, List.mem_singleton,
          List.not_mem_nil, or_false] at hc1
        rcases hc1 with h | h
        · rw [h]; exact hexDigitChar_isLowerHex_fin ⟨_, hhi⟩
        · rw [h]; exact hexDigitChar_isLowerHex_fin ⟨_, hlo⟩
      · exact ih c (by simpa [bytesHex] using hc2)

theorem hexDecode_bytesHex (bs : List (Fin 256)) :
    hexDecode (bytesHex bs) = some bs := by
  induction bs with
  | nil => rfl
  | cons b tl ih =>
      have hhi : b.val / 16 < 16 := Nat.div_lt_of_lt_mul (by omega)
      have hlo : b.val % 16 < 16 := Nat.mod_lt _ (by omega)
      have hm : (bytesHex (b :: tl)).data
          = hexDigitChar (b.val / 16) :: hexDigitChar (b.val % 16)
            :: (bytesHex tl).data := by
        simp [bytesHex, byteHexChars]
      simp only [hexDecode] at ih ⊢
      rw [hm]
      simp only [hexCharsDecode, hexDigitVal_hexDigitChar _ hhi,
        hexDigitVal_hexDigitChar _ hlo, ih, Option.bind_eq_bind,
        Option.some_bind, Option.pure_def, Option.some.injEq, List.cons.injEq]
      refine ⟨Fin.ext ?_, trivial⟩
      simp only [Fin.val_mk]
      omega

/-! ### Python values and `ContractHandler._format_result` -/

/-- JSON-compatible-ish Python runtime values as they occur in contract-call
results and request bodies.  `objWithDict` is an object carrying a
`__dict__` attribute (e.g. a named-tuple-like record); `dict` is a plain
Python `dict`, which has no `__dict__` attribute of its own.  `list` and
`tuple` are kept apart because `isinstance(x, (list, tuple))` accepts both
while the comprehension always rebuilds a `list`. -/
inductive PyVal where
  | none
  | bool (b : Bool)
  | int (n : Int)
  | str (s : String)
  | bytes (bs : List (Fin 256))
  | list (xs : List PyVal)
  | tuple (xs : List PyVal)
  | objWithDict (fields : List (String × PyVal))
  | dict (fields : List (String × PyVal))
deriving Repr

mutual

/-- `ContractHandler._format_result` (contract_handler.py lines 253-262):
`list`/`tuple` recurse elementwise into a list, objects with `__dict__`
recurse over their attribute mapping into a dict, `bytes` become their
lowercase hex string via `.hex()`, anything else (None, bool, int, str,
plain dict) is returned unchanged. -/
def formatResult : PyVal → PyVal
  | .list xs => .list (formatResultList xs)
  | .tuple xs => .list (formatResultList xs)
  | .objWithDict fs => .dict (formatResultFields fs)
  | .bytes bs => .str (bytesHex bs)
  | .none => .none
  | .bool b => .bool b
  | .int n => .int n
  | .str s => .str s
  | .dict fs => .dict fs

/-- Elementwise `_format_result` over a Python sequence. -/
def formatResultList : List PyVal → List PyVal
  | [] => []
  | x :: xs => formatResult x :: formatResultList xs

/-- `_format_result` over the values of an attribute mapping. -/
def formatResultFields : List (String × PyVal) → List (String × PyVal)
  | [] => []
  | (k, v) :: fs => (k, formatResult v) :: formatResultFields fs

end

theorem formatResultList_eq_map (xs : List PyVal) :
    formatResultList xs = xs.map formatResult := by
  induction xs with
  | nil => rfl
  | cons x xs ih => simp [formatResultList, ih]

theorem formatResultFields_eq_map (fs : List (String × PyVal)) :
    formatResultFields fs = fs.map (fun p => (p.1, formatResult p.2)) := by
  induction fs with
  | nil => rfl
  | cons p fs ih => cases p; simp [formatResultFields, ih]

/-! ### Exact binary64 model of `int(gas_limit * 1.2)`

`call_write_function` pads an estimated gas limit with
`gas_limit = int(gas_limit * 1.2)`.  Python floats are IEEE-754 binary64:
the literal `1.2` denotes the double `5404319552844595 / 2^52`, the integer
`gas_limit` is first converted to a double, the product is rounded to
nearest (ties to even) at 53 bits of precision, and `int` truncates toward
zero.  All of this is modelled exactly on `Nat` below (the model does not
cover overflow to infinity, which needs an estimate beyond `2^1024 / 1.2`).
-/

/-- Bit length of a natural number, computed with structural fuel so that
it reduces inside the kernel.  `bitLen n = 0` iff `n = 0`, otherwise
`2^(bitLen n - 1) ≤ n < 2^(bitLen n)`. -/
def bitLenAux : Nat → Nat → Nat
  | 0, _ => 0
  | fuel + 1, n => if n = 0 then 0 else bitLenAux fuel (n / 2) + 1

/-- Bit length of a natural number (`bitLen 0 = 0`). -/
def bitLen (n : Nat) : Nat := bitLenAux n n

theorem bitLenAux_fuel_irrel (fuel fuel' n : Nat) (h : n ≤ fuel)
    (h' : n ≤ fuel') : bitLenAux fuel n = bitLenAux fuel' n := by
  induction fuel using Nat.strong_induction_on generalizing fuel' n with
  | _ fuel ih =>
    match fuel, fuel' with
    | 0, f' =>
        interval_cases n
        cases f' <;> simp [bitLenAux]
    | f + 1, 0 =>
        interval_cases n
        simp [bitLenAux]
    | f + 1, f' + 1 =>
        by_cases hn : n = 0
        · simp [bitLenAux, hn]
        · simp only [bitLenAux, hn, if_false]
          have hrec := ih f (by omega) f' (n / 2) (by omega) (by omega)
          omega

theorem bitLen_lt (n : Nat) : n < 2 ^ bitLen n := by
  induction n using Nat.strong_induction_on with
  | _ n ih =>
    by_cases hn : n = 0
    · simp [hn, bitLen, bitLenAux]
    · have h1 : 1 ≤ n := by omega
      have hhalf : n / 2 < n := Nat.div_lt_self (by omega) (by omega)
      have ihh := ih (n / 2) hhalf
      have hb : bitLen n = bitLen (n / 2) + 1 := by
        unfold bitLen
        match hm : n, hn with
        | m + 1, _ =>
            simp only [bitLenAux, Nat.succ_ne_zero, if_false]
            exact congrArg (· + 1)
              (bitLenAux_fuel_irrel m ((m + 1) / 2) ((m + 1) / 2)
                (by omega) (by omega))
      rw [hb, pow_succ]
      omega

theorem bitLen_le_of_lt {n k : Nat} (h : n < 2 ^ k) : bitLen n ≤ k := by
  induction k generalizing n with
  | zero =>
      interval_cases n
      simp [bitLen, bitLenAux]
  | succ k ih =>
      by_cases hn : n = 0
      · simp [hn, bitLen, bitLenAux]
      · have hb : bitLen n = bitLen (n / 2) + 1 := by
          unfold bitLen
          match hm : n, hn with
          | m + 1, _ =>
              simp only [bitLenAux, Nat.succ_ne_zero, if_false]
              exact congrArg (· + 1)
                (bitLenAux_fuel_irrel m ((m + 1) / 2) ((m + 1) / 2)
                  (by omega) (by omega))
        have : n / 2 < 2 ^ k := by
          rw [pow_succ] at h
          omega
        have := ih this
        omega

/-- Round `n` to the nearest multiple of `K`, ties to the even multiple.
This is the mantissa-rounding core of binary64 arithmetic. -/
def rneM (n K : Nat) : Nat :=
  if 2 * (n % K) < K then n / K * K
  else if K < 2 * (n % K) then (n / K + 1) * K
  else if (n / K) % 2 = 0 then n / K * K else (n / K + 1) * K

/-- Round a positive integer to the nearest binary64-representable integer
(53 significant bits, round to nearest, ties to even).  Integers below
`2^53` are exact. -/
def fitDouble (n : Nat) : Nat :=
  if bitLen n ≤ 53 then n else rneM n (2 ^ (bitLen n - 53))

/-- The integer significand of the double literal `1.2`:
`float(1.2) = 5404319552844595 / 2^52` exactly. -/
def mant12 : Nat := 5404319552844595

/-- `int(g * 1.2)` in Python, computed exactly: convert `g` to a double,
multiply by the double `1.2` (rounding the exact product, a multiple of
`2^(-52)`, back to 53-bit precision), then truncate toward zero. -/
def pyIntMul12 (g : Nat) : Nat :=
  fitDouble (fitDouble g * mant12) / 2 ^ 52


theorem rneM_bounds (n K : Nat) (hK : 0 < K) :
    2 * rneM n K ≤ 2 * n + K ∧ 2 * n ≤ 2 * rneM n K + K := by
  have hr : n % K < K := Nat.mod_lt _ hK
  have hmod : n / K * K + n % K = n := Nat.div_add_mod' n K
  unfold rneM
  have hsucc : (n / K + 1) * K = n / K * K + K := by ring
  rw [hsucc]
  generalize n / K * K = a at hmod ⊢
  generalize n % K = r at hr hmod ⊢
  split
  · omega
  · split
    · omega
    · split <;> omega

theorem rneM_just_below (t K c : Nat) (hK : 0 < K) (hc : 0 < c)
    (h2c : 2 * c < K) : rneM ((t + 1) * K - c) K = (t + 1) * K := by
  have hcK : c < K := by omega
  have hn : (t + 1) * K - c = (K - c) + t * K := by
    have h1 : (t + 1) * K = t * K + K := by ring
    omega
  have hdiv : ((t + 1) * K - c) / K = t := by
    rw [hn, Nat.add_mul_div_right _ _ hK, Nat.div_eq_of_lt (by omega),
      Nat.zero_add]
  have hmodd : ((t + 1) * K - c) % K = K - c := by
    rw [hn, Nat.add_mul_mod_self_right, Nat.mod_eq_of_lt (by omega)]
  unfold rneM
  rw [hdiv, hmodd, if_neg (by omega), if_pos (by omega)]

theorem rneM_sandwich_of_rem_ne (g K R : Nat)
    (hK_le : K ≤ 562949953421312) (hg2 : 2 ≤ g)
    (hgle : g ≤ 562949953421312) (hr5 : 6 * g % 5 ≠ 0)
    (hb1 : 2 * R ≤ 2 * (g * 5404319552844595) + K)
    (hb2 : 2 * (g * 5404319552844595) ≤ 2 * R + K) :
    R / 4503599627370496 = 6 * g / 5 := by omega

theorem rneM_boundary_of_rem_eq (g K L : Nat) (hK_pos : 0 < K)
    (hKL : K * L = 4503599627370496) (hg2 : 2 ≤ g) (hr5 : 6 * g % 5 = 0)
    (hNsize : g * 5404319552844595 < 9007199254740992 * K) :
    rneM (g * 5404319552844595) K = 6 * g / 5 * 4503599627370496 := by
  have hL_pos : 0 < L := by
    rcases Nat.eq_zero_or_pos L with h | h
    · rw [h] at hKL; omega
    · exact h
  have hc5 : g = 5 * (g / 5) := by omega
  have hc_pos : 0 < g / 5 := by omega
  have hg2K : g < 2 * K := by omega
  have h2c : 2 * (g / 5) < K := by omega
  have hm_pos : 0 < 6 * g / 5 := by omega
  have hmLK : 6 * g / 5 * L * K = 6 * g / 5 * 4503599627370496 := by
    rw [Nat.mul_assoc, Nat.mul_comm L K, hKL]
  have hmL_pos : 0 < 6 * g / 5 * L := Nat.mul_pos hm_pos hL_pos
  have hN_eq : g * 5404319552844595 = 6 * g / 5 * L * K - g / 5 := by
    rw [hmLK]
    omega
  have hup := rneM_just_below (6 * g / 5 * L - 1) K (g / 5) hK_pos hc_pos h2c
  rw [Nat.sub_add_cancel hmL_pos] at hup
  rw [hN_eq, hup, hmLK]

/-- For every estimate of at most `2^49`, Python `int(g * 1.2)` agrees with
the exact integer part of `1.2 * g`, namely `6 * g / 5`.  (Beyond roughly
`2^53` the two diverge; see the gas-padding counterexample below.) -/
theorem pyIntMul12_eq_of_le (g : Nat) (hg : g ≤ 2 ^ 49) :
    pyIntMul12 g = 6 * g / 5 := by
  by_cases hg1 : g ≤ 1
  · interval_cases g <;> decide
  push_neg at hg1
  rw [show (2 : Nat) ^ 49 = 562949953421312 from by norm_num] at hg
  have hfg : fitDouble g = g := by
    unfold fitDouble
    rw [if_pos]
    have h50 : g < 2 ^ 50 := by
      rw [show (2 : Nat) ^ 50 = 1125899906842624 from by norm_num]
      omega
    have := bitLen_le_of_lt h50
    omega
  unfold pyIntMul12
  rw [hfg, show mant12 = 5404319552844595 from rfl,
    show (2 : Nat) ^ 52 = 4503599627370496 from by norm_num]
  have hNlo : 9007199254740992 ≤ g * 5404319552844595 := by omega
  have hNhi : g * 5404319552844595 < 5070602400912917605986812821504 := by
    omega
  have hbl_gt : 53 < bitLen (g * 5404319552844595) := by
    by_contra hcon
    push_neg at hcon
    have h1 := bitLen_lt (g * 5404319552844595)
    have h2 : (2 : Nat) ^ bitLen (g * 5404319552844595) ≤ 2 ^ 53 :=
      Nat.pow_le_pow_right (by omega) hcon
    rw [show (2 : Nat) ^ 53 = 9007199254740992 from by norm_num] at h2
    omega
  have hbl_le : bitLen (g * 5404319552844595) ≤ 102 :=
    bitLen_le_of_lt (by
      rw [show (2 : Nat) ^ 102 = 5070602400912917605986812821504 from by
        norm_num]
      omega)
  unfold fitDouble
  rw [if_neg (by omega)]
  have hKL : 2 ^ (bitLen (g * 5404319552844595) - 53) *
      2 ^ (52 - (bitLen (g * 5404319552844595) - 53)) = 4503599627370496 := by
    rw [← pow_add,
      show bitLen (g * 5404319552844595) - 53 +
        (52 - (bitLen (g * 5404319552844595) - 53)) = 52 from by omega]
    norm_num
  have hK_pos : 0 < 2 ^ (bitLen (g * 5404319552844595) - 53) :=
    Nat.pos_pow_of_pos _ (by omega)
  have hK_le : 2 ^ (bitLen (g * 5404319552844595) - 53) ≤ 562949953421312 := by
    calc (2 : Nat) ^ (bitLen (g * 5404319552844595) - 53)
        ≤ 2 ^ 49 := Nat.pow_le_pow_right (by omega) (by omega)
    _ = 562949953421312 := by norm_num
  have hNsize : g * 5404319552844595 <
      9007199254740992 * 2 ^ (bitLen (g * 5404319552844595) - 53) := by
    have h1 := bitLen_lt (g * 5404319552844595)
    have h2 : (2 : Nat) ^ bitLen (g * 5404319552844595)
        = 2 ^ 53 * 2 ^ (bitLen (g * 5404319552844595) - 53) := by
      rw [← pow_add]
      congr 1
      omega
    rw [h2, show (2 : Nat) ^ 53 = 9007199254740992 from by norm_num] at h1
    exact h1
  by_cases hr5 : 6 * g % 5 = 0
  · rw [rneM_boundary_of_rem_eq g _ _ hK_pos hKL (by omega) hr5 hNsize]
    omega
  · have hb := rneM_bounds (g * 5404319552844595)
      (2 ^ (bitLen (g * 5404319552844595) - 53)) hK_pos
    exact rneM_sandwich_of_rem_ne g _ _ hK_le (by omega) (by omega) hr5
      hb.1 hb.2


/-! ### JSON values (`flask.jsonify`) -/

/-- JSON values as produced by `jsonify`. -/
inductive Json where
  | null
  | bool (b : Bool)
  | num (n : Int)
  | str (s : String)
  | arr (xs : List Json)
  | obj (fields : List (String × Json))
deriving Repr

mutual

/-- Serialization of a Python value by `jsonify`; `Option.none` models the
`TypeError` raised on a non-JSON-serializable value (raw bytes, arbitrary
objects), which the surrounding `try` of every route turns into a failure
envelope. -/
def pyToJson : PyVal → Option Json
  | .none => some .null
  | .bool b => some (.bool b)
  | .int n => some (.num n)
  | .str s => some (.str s)
  | .bytes _ => Option.none
  | .list xs => do pure (.arr (← pyToJsonList xs))
  | .tuple xs => do pure (.arr (← pyToJsonList xs))
  | .objWithDict _ => Option.none
  | .dict fs => do pure (.obj (← pyToJsonFields fs))

/-- Elementwise serialization of a Python sequence. -/
def pyToJsonList : List PyVal → Option (List Json)
  | [] => some []
  | x :: xs => do pure ((← pyToJson x) :: (← pyToJsonList xs))

/-- Serialization of a string-keyed Python dict. -/
def pyToJsonFields : List (String × PyVal) → Option (List (String × Json))
  | [] => some []
  | (k, v) :: fs => do pure ((k, ← pyToJson v) :: (← pyToJsonFields fs))

end

/-! ### The contract-access layer (`ContractHandler`)

The `web3` library and the remote node are abstracted into `Env`: each
field records the outcome the library would produce for one primitive the
handler code invokes.  The handler methods themselves are translated
line by line from `contract_handler.py`.
-/

/-- A transaction receipt as returned by `get_transaction_receipt`. -/
structure Receipt where
  status : Nat
  blockNumber : Nat
  gasUsed : Nat
deriving Repr, DecidableEq

/-- The dict assembled by `build_transaction` (the keys the code sets, plus
the calldata the library adds; `sender` is the `from` key). -/
structure TxDict where
  sender : String
  gas : Nat
  gasPrice : Nat
  nonce : Nat
  data : String
deriving Repr, DecidableEq

/-- Return value of `call_write_function`: a broadcast transaction hash, or
the unsigned transaction dict for frontend signing. -/
inductive WriteResult where
  | txHash (s : String)
  | txDict (d : TxDict)
deriving Repr, DecidableEq

/-- A from/to block argument to `create_filter`: an int after `latest`
resolution, or whatever string the caller supplied (passed through as-is). -/
inductive BlockParam where
  | int (n : Int)
  | str (s : String)
deriving Repr, DecidableEq

/-- One raw entry of `event_filter.get_all_entries()`. -/
structure EventEntry where
  event : String
  args : List (String × PyVal)
  transactionHash : List (Fin 256)
  blockNumber : Nat
  logIndex : Nat

/-- Environment: the fixed configuration plus an oracle for the outcome of
every `web3` primitive the handler invokes.  `Except.error m` models a
raised exception with `str(e) = m`. -/
structure Env where
  /-- `self.contract` is non-None (address configured, ABI file found). -/
  contractLoaded : Bool
  /-- whether `getattr(self.contract.functions, name)` succeeds. -/
  hasFunction : String → Bool
  /-- outcome of `contract_function(**params).call()`. -/
  callResult : String → List (String × PyVal) → Except String PyVal
  /-- outcome of `transaction.estimate_gas({'from': account})`. -/
  estimateGasResult : String → String → Except String Nat
  /-- outcome of `self.web3.eth.get_transaction_count(account)`. -/
  getTransactionCount : String → Except String Nat
  /-- whether `build_transaction` itself raises. -/
  buildCheck : String → List (String × PyVal) → Except String Unit
  /-- calldata hex the library places into the built transaction dict. -/
  encodeData : String → List (String × PyVal) → String
  /-- `self.config.PRIVATE_KEY` (None or a key). -/
  privateKey : Option String
  /-- outcome of `sign_transaction` + `send_raw_transaction`: hash bytes. -/
  signAndSend : TxDict → String → Except String (List (Fin 256))
  /-- outcome of `self.web3.eth.get_transaction(tx_hash)`. -/
  getTransaction : String → Except String Unit
  /-- outcome of `self.web3.eth.get_transaction_receipt(tx_hash)`. -/
  getReceipt : String → Except String Receipt
  /-- `self.web3.eth.block_number`, an RPC read that can fail. -/
  blockNumber : Except String Nat
  /-- `self.web3.eth.chain_id`. -/
  chainId : Except String Nat
  /-- `self.web3.eth.gas_price`. -/
  gasPrice : Except String Nat
  /-- `self.web3.is_connected()`. -/
  isConnected : Bool
  /-- `self.config.BLOCKCHAIN_NETWORK`. -/
  networkName : String
  /-- `self.config.CONTRACT_ADDRESS`. -/
  contractAddress : Option String
  /-- `self.config.MAX_GAS_PRICE` in gwei. -/
  maxGasPriceGwei : Nat
  /-- outcome of `create_filter(fromBlock, toBlock).get_all_entries()`. -/
  getFilterEntries : BlockParam → BlockParam → Except String (List EventEntry)

/-- `HexBytes.hex()`: `0x` followed by lowercase hex. -/
def hexBytesHex (bs : List (Fin 256)) : String := "0x" ++ bytesHex bs

/-- Message of the exception raised before the `try` blocks when
`self.contract` is None. -/
def contractNotInitializedMsg : String := "Contract not initialized"

/-- Message of the `ABIFunctionNotFound` raised by
`getattr(self.contract.functions, name)` for an unknown name (wording
abridged from the library; what matters below is that it is non-empty). -/
def fnNotFoundMsg (function_name : String) : String :=
  "The function " ++ function_name ++ " was not found in this contract abi"

/-- `ContractHandler.call_read_function` (contract_handler.py 71-90).  An
empty params dict is falsy, so the function is invoked with no arguments;
the oracle sees that as the empty list either way. -/
def call_read_function (env : Env) (function_name : String)
    (params : List (String × PyVal)) : Except String PyVal :=
  if !env.contractLoaded then .error contractNotInitializedMsg
  else if !env.hasFunction function_name then
    .error (fnNotFoundMsg function_name)
  else (env.callResult function_name params).map formatResult

/-- Python falsy test on the `gas_limit: int = None` parameter: both `None`
and `0` are falsy under `if not gas_limit:`. -/
def gasLimitFalsy : Option Nat → Bool
  | Option.none => true
  | some g => g == 0

/-- `self.web3.to_wei(gwei, 'gwei')`. -/
def gweiToWei (gwei : Nat) : Nat := gwei * 1000000000

/-- The gas-limit resolution step of `call_write_function`
(contract_handler.py 107-110): when the caller-supplied limit is falsy,
estimate against the library and pad by `int(gas_limit * 1.2)`. -/
def resolveGasLimit (env : Env) (function_name account_address : String)
    (gas_limit : Option Nat) : Except String Nat :=
  if gasLimitFalsy gas_limit then do
    let est ← env.estimateGasResult function_name account_address
    pure (pyIntMul12 est)
  else pure (gas_limit.getD 0)

/-- `ContractHandler.call_write_function` (contract_handler.py 92-133):
resolve the function, estimate and pad gas when no (truthy) limit was
given, look up the nonce, build the transaction dict, then either sign and
broadcast (server key configured) or return the dict. -/
def call_write_function (env : Env) (function_name : String)
    (params : List (String × PyVal)) (account_address : String)
    (gas_limit : Option Nat) : Except String WriteResult :=
  if !env.contractLoaded then .error contractNotInitializedMsg
  else if !env.hasFunction function_name then
    .error (fnNotFoundMsg function_name)
  else do
    let gl ← resolveGasLimit env function_name account_address gas_limit
    let nonce ← env.getTransactionCount account_address
    let _ ← env.buildCheck function_name params
    let txd : TxDict := {
      sender := account_address
      gas := gl
      gasPrice := gweiToWei env.maxGasPriceGwei
      nonce := nonce
      data := env.encodeData function_name params }
    match env.privateKey with
    | some pk => do
        let raw ← env.signAndSend txd pk
        pure (.txHash (hexBytesHex raw))
    | Option.none => pure (.txDict txd)

/-- The status dict built by `get_transaction_status`. -/
structure TxStatus where
  status : String
  block_number : Option Nat
  gas_used : Option Nat
  transaction_hash : String
  confirmations : Int
deriving Repr, DecidableEq

/-- `ContractHandler.get_transaction_status` (contract_handler.py 135-164).
The inner bare `except` turns any failure of the receipt lookup or of the
`block_number` read into the pending shape; a failure of `get_transaction`
itself propagates out of the method. -/
def get_transaction_status (env : Env) (tx_hash : String) :
    Except String TxStatus := do
  let _ ← env.getTransaction tx_hash
  match (do
      let receipt ← env.getReceipt tx_hash
      let bn ← env.blockNumber
      pure (receipt, bn) : Except String (Receipt × Nat)) with
  | .ok (receipt, bn) =>
      pure {
        status := if receipt.status = 1 then "success" else "failed"
        block_number := some receipt.blockNumber
        gas_used := some receipt.gasUsed
        transaction_hash := tx_hash
        confirmations := (bn : Int) - (receipt.blockNumber : Int) }
  | .error _ =>
      pure {
        status := "pending"
        transaction_hash := tx_hash
        block_number := Option.none
        gas_used := Option.none
        confirmations := 0 }

/-- The per-event dict built inside `get_contract_events`. -/
structure EventDict where
  event : String
  args : List (String × PyVal)
  transaction_hash : String
  block_number : Nat
  log_index : Nat

/-- Demarshalling of one filter entry (contract_handler.py 187-194). -/
def eventEntryDict (e : EventEntry) : EventDict :=
  { event := e.event
    args := e.args
    transaction_hash := hexBytesHex e.transactionHash
    block_number := e.blockNumber
    log_index := e.logIndex }

/-- The body of the `try` in `get_contract_events`: resolve `latest` block
tags (each resolution reads `block_number` from the node and can fail),
create the filter over all contract events and fetch all entries. -/
def eventsTryBody (env : Env) (from_block to_block : String) :
    Except String (List EventEntry) := do
  let fb : BlockParam ←
    if from_block = "latest" then do
      let bn ← env.blockNumber
      pure (.int ((bn : Int) - 100))
    else pure (.str from_block)
  let tb : BlockParam ←
    if to_block = "latest" then do
      let bn ← env.blockNumber
      pure (.int (bn : Int))
    else pure (.str to_block)
  env.getFilterEntries fb tb

/-- `ContractHandler.get_contract_events` (contract_handler.py 166-200).
The `Contract not initialized` raise sits BEFORE the `try`, so it
propagates; every failure inside the `try` is swallowed into `[]`. -/
def get_contract_events (env : Env) (from_block to_block : String) :
    Except String (List EventDict) :=
  if !env.contractLoaded then .error contractNotInitializedMsg
  else
    match eventsTryBody env from_block to_block with
    | .ok entries => .ok (entries.map eventEntryDict)
    | .error _ => .ok []

/-- The network dict built by `get_network_info`. -/
structure NetworkInfo where
  network : String
  chain_id : Nat
  block_number : Nat
  gas_price : Nat
  is_connected : Bool
  contract_address : Option String
deriving Repr, DecidableEq

/-- `ContractHandler.get_network_info` (contract_handler.py 202-215): any
failing chain read propagates. -/
def get_network_info (env : Env) : Except String NetworkInfo := do
  let cid ← env.chainId
  let bn ← env.blockNumber
  let gp ← env.gasPrice
  pure {
    network := env.networkName
    chain_id := cid
    block_number := bn
    gas_price := gp
    is_connected := env.isConnected
    contract_address := env.contractAddress }

/-! ### The API layer (`app.py` routes)

Each route is a function of the environment and its request inputs; it
returns the jsonified response body together with the number of
contract-access-layer invocations it performed (for the no-retry and
no-delegation properties).
-/

/-- The uniform failure envelope `{'success': False, 'message': m}`. -/
def mkFail (message : String) : Json :=
  .obj [("success", .bool false), ("message", .str message)]

/-- Message of the `AttributeError` raised by `request.json.get(...)` when
the request carries no JSON body (wording abridged). -/
def noneTypeGetMsg : String := "NoneType object has no attribute get"

/-- Python falsy test on an optional string: `None` and `''`. -/
def strFalsy : Option String → Bool
  | Option.none => true
  | some s => s == ""

/-- Result of one route call: the jsonified response body plus the number
of contract-access-layer invocations the route performed. -/
structure RouteResult where
  body : Json
  accessCalls : Nat
deriving Repr

/-- `connect_wallet` route (app.py 20-35).  `body` is `request.json`
(`Option.none` means no JSON body, making `.get` raise inside the `try`);
the inner option is the `account_address` key.  The contract handler is
never consulted. -/
def connect_wallet (body : Option (Option String)) : RouteResult :=
  match body with
  | Option.none => ⟨mkFail noneTypeGetMsg, 0⟩
  | some account_address =>
      if !strFalsy account_address then
        ⟨.obj [("success", .bool true),
               ("message", .str "Wallet connected successfully"),
               ("account", .str (account_address.getD ""))], 0⟩
      else ⟨mkFail "No account address provided", 0⟩

/-- Message of the `TypeError` raised by `jsonify` on a non-serializable
payload (wording abridged; caught by the route `try`). -/
def jsonifyErrMsg : String := "Object of unexpected type is not JSON serializable"

/-- `read_contract` route (app.py 37-46).  `params` is `dict(request.args)`.
`jsonify` runs inside the `try`, so a non-serializable result also lands
in the failure envelope. -/
def read_contract (env : Env) (function_name : String)
    (params : List (String × PyVal)) : RouteResult :=
  match call_read_function env function_name params with
  | .ok result =>
      match pyToJson result with
      | some j => ⟨.obj [("success", .bool true), ("result", j)], 1⟩
      | Option.none => ⟨mkFail jsonifyErrMsg, 1⟩
  | .error e => ⟨mkFail e, 1⟩

/-- JSON body of a write request as the route reads it:
`data.get('account_address')` and `data.get('params', {})`. -/
structure WriteBody where
  account_address : Option String
  params : List (String × PyVal)

/-- jsonify of the write-call result: the hash hex string, or the built
transaction dict (all of whose fields are JSON-safe). -/
def writeResultJson : WriteResult → Json
  | .txHash s => .str s
  | .txDict d => .obj [
      ("from", .str d.sender), ("gas", .num (d.gas : Int)),
      ("gasPrice", .num (d.gasPrice : Int)), ("nonce", .num (d.nonce : Int)),
      ("data", .str d.data)]

/-- `write_contract` route (app.py 48-71): missing/empty account address is
rejected before the handler is invoked; the route never passes a gas
limit. -/
def write_contract (env : Env) (function_name : String)
    (body : Option WriteBody) : RouteResult :=
  match body with
  | Option.none => ⟨mkFail noneTypeGetMsg, 0⟩
  | some data =>
      if strFalsy data.account_address then
        ⟨mkFail "Account address required", 0⟩
      else
        match call_write_function env function_name data.params
            (data.account_address.getD "") Option.none with
        | .ok wr =>
            ⟨.obj [("success", .bool true),
                   ("tx_hash", writeResultJson wr),
                   ("message", .str "Transaction sent successfully")], 1⟩
        | .error e => ⟨mkFail e, 1⟩

/-- An optional number field of a status dict (`None` becomes JSON null). -/
def optNumJson : Option Nat → Json
  | Option.none => .null
  | some n => .num (n : Int)

/-- jsonify of the transaction-status dict. -/
def txStatusJson (s : TxStatus) : Json :=
  .obj [("status", .str s.status),
        ("block_number", optNumJson s.block_number),
        ("gas_used", optNumJson s.gas_used),
        ("transaction_hash", .str s.transaction_hash),
        ("confirmations", .num s.confirmations)]

/-- `get_transaction_status` route (app.py 73-80). -/
def get_transaction_status_route (env : Env) (tx_hash : String) :
    RouteResult :=
  match get_transaction_status env tx_hash with
  | .ok st => ⟨.obj [("success", .bool true), ("status", txStatusJson st)], 1⟩
  | .error e => ⟨mkFail e, 1⟩

/-- jsonify of one event dict; fails when an event argument is not
serializable (e.g. raw bytes). -/
def eventDictJson (d : EventDict) : Option Json := do
  let argsJson ← pyToJsonFields d.args
  pure (.obj [("event", .str d.event), ("args", .obj argsJson),
              ("transaction_hash", .str d.transaction_hash),
              ("block_number", .num (d.block_number : Int)),
              ("log_index", .num (d.log_index : Int))])

/-- jsonify of the events list. -/
def eventsJson : List EventDict → Option (List Json)
  | [] => some []
  | d :: ds => do pure ((← eventDictJson d) :: (← eventsJson ds))

/-- `get_contract_events` route (app.py 82-90): reads `from_block` from the
query string with default `latest`; `to_block` always stays at its
`latest` default. -/
def get_contract_events_route (env : Env) (from_block : Option String) :
    RouteResult :=
  match get_contract_events env (from_block.getD "latest") "latest" with
  | .ok events =>
      match eventsJson events with
      | some js => ⟨.obj [("success", .bool true), ("events", .arr js)], 1⟩
      | Option.none => ⟨mkFail jsonifyErrMsg, 1⟩
  | .error e => ⟨mkFail e, 1⟩

/-- An optional string field (`None` becomes JSON null). -/
def optStrJson : Option String → Json
  | Option.none => .null
  | some s => .str s

/-- jsonify of the network dict. -/
def networkInfoJson (n : NetworkInfo) : Json :=
  .obj [("network", .str n.network), ("chain_id", .num (n.chain_id : Int)),
        ("block_number", .num (n.block_number : Int)),
        ("gas_price", .num (n.gas_price : Int)),
        ("is_connected", .bool n.is_connected),
        ("contract_address", optStrJson n.contract_address)]

/-- `get_network_info` route (app.py 92-99). -/
def get_network_info_route (env : Env) : RouteResult :=
  match get_network_info env with
  | .ok info =>
      ⟨.obj [("success", .bool true), ("network", networkInfoJson info)], 1⟩
  | .error e => ⟨mkFail e, 1⟩

/-- `not_found` handler (app.py 101-103): envelope plus HTTP status 404. -/
def not_found : Json × Nat := (mkFail "Endpoint not found", 404)

/-- `internal_error` handler (app.py 105-107). -/
def internal_error : Json × Nat := (mkFail "Internal server error", 500)


/-! ### Concrete environments for instantiating the theorems -/

/-- A fully healthy environment: contract loaded, one known function
`transfer`, every chain primitive succeeding. -/
def sampleEnv : Env := {
  contractLoaded := true
  hasFunction := fun f => f == "transfer"
  callResult := fun _ _ => .ok (.int 42)
  estimateGasResult := fun _ _ => .ok 100000
  getTransactionCount := fun _ => .ok 7
  buildCheck := fun _ _ => .ok ()
  encodeData := fun _ _ => "0xdeadbeef"
  privateKey := Option.none
  signAndSend := fun _ _ => .ok [⟨171, by omega⟩]
  getTransaction := fun _ => .ok ()
  getReceipt := fun _ => .ok ⟨1, 100, 21000⟩
  blockNumber := .ok 110
  chainId := .ok 1
  gasPrice := .ok 20
  isConnected := true
  networkName := "mainnet"
  contractAddress := some "0xabc"
  maxGasPriceGwei := 50
  getFilterEntries := fun _ _ => .ok [] }

/-- Same environment with no contract handle loaded. -/
def envNoContract : Env := { sampleEnv with contractLoaded := false }

/-- Same environment with the event filter failing. -/
def envFilterFail : Env :=
  { sampleEnv with getFilterEntries := fun _ _ => .error "filter failure" }

/-- Same environment with a server-held private key configured. -/
def envWithKey : Env := { sampleEnv with privateKey := some "key" }

/-! ### C2: missing account address rejected before the access layer -/

/-- C2: a write request whose body carries a missing or empty
`account_address` is answered with the failure envelope
`{'success': False, 'message': 'Account address required'}` and performs
zero contract-access-layer invocations (no network call, no gas
estimation, no nonce lookup). -/
theorem write_missing_account_no_access (env : Env) (function_name : String)
    (data : WriteBody)
    (h : data.account_address = Option.none ∨ data.account_address = some "") :
    write_contract env function_name (some data)
      = ⟨mkFail "Account address required", 0⟩ := by
  have hf : strFalsy data.account_address = true := by
    rcases h with h | h <;> simp [strFalsy, h]
  unfold write_contract
  simp [hf]

/-- Witness for C2 at a concrete empty-address request. -/
theorem write_missing_account_no_access_witness :
    (WriteBody.mk (some "") []).account_address = Option.none ∨
      (WriteBody.mk (some "") []).account_address = some "" ∧
    write_contract sampleEnv "transfer" (some (WriteBody.mk (some "") []))
      = ⟨mkFail "Account address required", 0⟩ :=
  Or.inr ⟨rfl,
    write_missing_account_no_access sampleEnv "transfer"
      (WriteBody.mk (some "") []) (Or.inr rfl)⟩

/-! ### C4: unknown function name fails on read and write -/

/-- The unknown-function message is never the empty string. -/
theorem fnNotFoundMsg_ne_empty (fn : String) : fnNotFoundMsg fn ≠ "" := by
  intro hcon
  have hlen := congrArg String.length hcon
  rw [fnNotFoundMsg] at hlen
  rw [String.length_append, String.length_append] at hlen
  have h1 : ("The function " : String).length = 13 := rfl
  have h2 : (" was not found in this contract abi" : String).length = 35 := rfl
  have h3 : ("" : String).length = 0 := rfl
  omega

/-- C4: for a function name absent from the bound interface, the read and
write operations both raise, and both API routes answer with the failure
envelope `{'success': False, 'message': m}` for a non-empty `m` — an
envelope that by construction carries no result payload. -/
theorem unknown_function_fails (env : Env) (function_name : String)
    (params : List (String × PyVal)) (body : Option WriteBody)
    (h : env.hasFunction function_name = false) :
    (∃ m, call_read_function env function_name params = .error m) ∧
    (∀ aa gl, ∃ m,
      call_write_function env function_name params aa gl = .error m) ∧
    (∃ m, m ≠ "" ∧
      read_contract env function_name params = ⟨mkFail m, 1⟩) ∧
    (∃ m, m ≠ "" ∧ ∃ k,
      write_contract env function_name body = ⟨mkFail m, k⟩) := by
  have hmsg : ∀ b : Bool,
      (if b = true then fnNotFoundMsg function_name
       else contractNotInitializedMsg) ≠ "" := by
    intro b
    cases b
    · simp only [Bool.false_eq_true, if_false]
      decide
    · simpa using fnNotFoundMsg_ne_empty function_name
  have hread : call_read_function env function_name params
      = .error (if env.contractLoaded = true then fnNotFoundMsg function_name
                else contractNotInitializedMsg) := by
    unfold call_read_function
    cases hcl : env.contractLoaded <;> simp [h, hcl]
  have hwrite : ∀ ps aa gl, call_write_function env function_name ps aa gl
      = .error (if env.contractLoaded = true then fnNotFoundMsg function_name
                else contractNotInitializedMsg) := by
    intro ps aa gl
    unfold call_write_function
    cases hcl : env.contractLoaded <;> simp [h, hcl]
  refine ⟨⟨_, hread⟩, fun aa gl => ⟨_, hwrite params aa gl⟩,
    ⟨_, hmsg env.contractLoaded, ?_⟩, ?_⟩
  · unfold read_contract
    rw [hread]
  · match body with
    | Option.none =>
        refine ⟨noneTypeGetMsg, by decide, 0, rfl⟩
    | some data =>
        by_cases hf : strFalsy data.account_address = true
        · refine ⟨"Account address required", by decide, 0, ?_⟩
          unfold write_contract
          simp [hf]
        · refine ⟨_, hmsg env.contractLoaded, 1, ?_⟩
          simp only [Bool.not_eq_true] at hf
          unfold write_contract
          simp only [hf, Bool.false_eq_true, if_false,
            hwrite data.params (data.account_address.getD "") Option.none]

/-- Witness for C4 at the concrete unknown name `warble`. -/
theorem unknown_function_fails_witness :
    sampleEnv.hasFunction "warble" = false ∧
    (∃ m, m ≠ "" ∧
      read_contract sampleEnv "warble" [] = ⟨mkFail m, 1⟩) :=
  ⟨rfl, (unknown_function_fails sampleEnv "warble" [] Option.none rfl).2.2.1⟩

/-! ### C1: event-lookup failure policy -/

/-- C1 counterexample: with the contract handle not loaded, the event
route does NOT degrade to an empty list — it answers with the failure
envelope `{'success': False, 'message': 'Contract not initialized'}`
rather than `{'success': True, 'events': []}`. -/
theorem events_not_loaded_counterexample :
    get_contract_events_route envNoContract (some "latest")
        = ⟨mkFail contractNotInitializedMsg, 1⟩ ∧
    get_contract_events_route envNoContract (some "latest")
        ≠ ⟨Json.obj [("success", Json.bool true), ("events", Json.arr [])],
           1⟩ := by
  refine ⟨rfl, fun hcon => ?_⟩
  rw [show get_contract_events_route envNoContract (some "latest")
      = ⟨mkFail contractNotInitializedMsg, 1⟩ from rfl] at hcon
  simp [mkFail, contractNotInitializedMsg] at hcon

/-- C1 (amended): failures raised inside the retrieval body (the
`latest` resolution, the filter creation, the entry fetch) are swallowed:
the handler returns `[]` and the route answers `success: True` with an
empty `events` list.  But when the contract handle is not loaded the
operation raises before the `try`, and the API returns a failure envelope
instead. -/
theorem events_failure_swallowed (env : Env) (fb : Option String)
    (e : String) :
    (env.contractLoaded = true →
      eventsTryBody env (fb.getD "latest") "latest" = .error e →
      get_contract_events_route env fb
        = ⟨Json.obj [("success", Json.bool true), ("events", Json.arr [])],
           1⟩) ∧
    (env.contractLoaded = false →
      get_contract_events_route env fb
        = ⟨mkFail contractNotInitializedMsg, 1⟩) := by
  constructor
  · intro hcl herr
    unfold get_contract_events_route get_contract_events
    rw [hcl, herr]
    rfl
  · intro hcl
    unfold get_contract_events_route get_contract_events
    rw [hcl]
    rfl

/-- Witness for C1 (amended), on an environment whose filter fails. -/
theorem events_failure_swallowed_witness :
    envFilterFail.contractLoaded = true ∧
    eventsTryBody envFilterFail "latest" "latest" = .error "filter failure" ∧
    get_contract_events_route envFilterFail Option.none
      = ⟨Json.obj [("success", Json.bool true), ("events", Json.arr [])],
         1⟩ :=
  ⟨rfl, rfl,
    (events_failure_swallowed envFilterFail Option.none "filter failure").1
      rfl rfl⟩


/-! ### C3: transaction-status reporting -/

/-- C3: for a known transaction hash, a receipt with status code 1 reports
`success` and any other code (0 for a reverted transaction) reports
`failed`, together with the receipt block number, the gas used and
`confirmations = current block − receipt block`; a known hash with no
obtainable receipt reports `pending` with null block/gas fields and zero
confirmations. -/
theorem transaction_status_report (env : Env) (h : String)
    (htx : env.getTransaction h = .ok ()) :
    (∀ receipt bn, env.getReceipt h = .ok receipt →
      env.blockNumber = .ok bn →
      get_transaction_status env h = .ok {
        status := if receipt.status = 1 then "success" else "failed"
        block_number := some receipt.blockNumber
        gas_used := some receipt.gasUsed
        transaction_hash := h
        confirmations := (bn : Int) - (receipt.blockNumber : Int) } ∧
      ((if receipt.status = 1 then "success" else "failed") = "success"
        ↔ receipt.status = 1) ∧
      (receipt.status = 0 →
        (if receipt.status = 1 then "success" else "failed") = "failed")) ∧
    (∀ e, env.getReceipt h = .error e →
      get_transaction_status env h = .ok {
        status := "pending"
        transaction_hash := h
        block_number := Option.none
        gas_used := Option.none
        confirmations := 0 }) := by
  constructor
  · intro receipt bn hrec hbn
    refine ⟨?_, ?_, ?_⟩
    · unfold get_transaction_status
      rw [htx, hrec, hbn]
      rfl
    · by_cases hs : receipt.status = 1
      · rw [if_pos hs]
        exact ⟨fun _ => hs, fun _ => rfl⟩
      · rw [if_neg hs]
        exact ⟨fun hcon => absurd hcon (by decide), fun hcon => absurd hcon hs⟩
    · intro hs
      rw [if_neg (by omega)]
  · intro e hrec
    unfold get_transaction_status
    rw [htx, hrec]
    rfl

/-- Witness for C3: in the sample environment the receipt has status 1 in
block 100 and the head is at block 110, giving 10 confirmations. -/
theorem transaction_status_report_witness :
    sampleEnv.getTransaction "0xhash" = .ok () ∧
    get_transaction_status sampleEnv "0xhash" = .ok {
      status := "success"
      block_number := some 100
      gas_used := some 21000
      transaction_hash := "0xhash"
      confirmations := 10 } :=
  ⟨rfl, by
    have hmain := ((transaction_status_report sampleEnv "0xhash" rfl).1
      ⟨1, 100, 21000⟩ 110 rfl rfl).1
    simpa using hmain⟩

/-! ### C5: write-call result shape -/

/-- Destructuring of a successful `Except` bind. -/
theorem except_bind_ok {α β : Type} {x : Except String α}
    {f : α → Except String β} {b : β} (h : x >>= f = .ok b) :
    ∃ a, x = .ok a ∧ f a = .ok b := by
  cases x with
  | error e => simp [Bind.bind, Except.bind] at h
  | ok a => exact ⟨a, rfl, by simpa [Bind.bind, Except.bind] using h⟩

/-- C5: every successful write call returns, when no server key is
configured, the assembled unsigned transaction dict; and when a key is
configured, the transaction hash as a `0x`-prefixed lowercase-hex
string. -/
theorem write_success_result_shape (env : Env) (fn : String)
    (params : List (String × PyVal)) (aa : String) (gl : Option Nat)
    (wr : WriteResult)
    (hok : call_write_function env fn params aa gl = .ok wr) :
    (env.privateKey = Option.none → ∃ d, wr = .txDict d) ∧
    (∀ pk, env.privateKey = some pk → ∃ raw,
      wr = .txHash (hexBytesHex raw) ∧
      ∀ c ∈ (bytesHex raw).data, isLowerHexChar c = true) := by
  unfold call_write_function at hok
  cases hcl : env.contractLoaded with
  | false => rw [hcl] at hok; simp at hok
  | true =>
  cases hhf : env.hasFunction fn with
  | false => rw [hcl, hhf] at hok; simp at hok
  | true =>
  rw [hcl, hhf] at hok
  simp only [Bool.not_true, Bool.false_eq_true, if_false] at hok
  obtain ⟨glv, hgl, hok⟩ := except_bind_ok hok
  obtain ⟨nonce, hnonce, hok⟩ := except_bind_ok hok
  obtain ⟨u, hbuild, hok⟩ := except_bind_ok hok
  constructor
  · intro hpk
    rw [hpk] at hok
    simp only [Pure.pure, Except.pure, Except.ok.injEq] at hok
    exact ⟨_, hok.symm⟩
  · intro pk hpk
    rw [hpk] at hok
    obtain ⟨raw, hraw, hok⟩ := except_bind_ok hok
    simp only [Pure.pure, Except.pure, Except.ok.injEq] at hok
    exact ⟨raw, hok.symm, bytesHex_isLowerHex raw⟩

/-- Witness for C5 on the keyed environment: the library hash bytes `ab`
come back as the hex string `0xab`. -/
theorem write_success_result_shape_witness :
    call_write_function envWithKey "transfer" [] "0xCAFE" (some 21000)
        = .ok (.txHash "0xab") ∧
    ∃ raw, WriteResult.txHash "0xab" = .txHash (hexBytesHex raw) ∧
      ∀ c ∈ (bytesHex raw).data, isLowerHexChar c = true :=
  ⟨rfl, (write_success_result_shape envWithKey "transfer" [] "0xCAFE"
      (some 21000) (.txHash "0xab") rfl).2 "key" rfl⟩

/-! ### C6: byte-sequence formatting round-trips through hex -/

/-- C6: formatting a byte sequence yields its lowercase hexadecimal
string — every character a lowercase hex digit, so in particular no `0x`
prefix is introduced — and decoding that string returns exactly the
original bytes. -/
theorem format_bytes_hex_roundtrip (bs : List (Fin 256)) :
    formatResult (.bytes bs) = .str (bytesHex bs) ∧
    (∀ c ∈ (bytesHex bs).data, isLowerHexChar c = true) ∧
    hexDecode (bytesHex bs) = some bs :=
  ⟨rfl, bytesHex_isLowerHex bs, hexDecode_bytesHex bs⟩

/-! ### C8: recursive structure of result formatting -/

/-- C8: `_format_result` flattens by structure — sequences (lists and
tuples alike) elementwise into lists, `__dict__` records into string-keyed
dicts of flattened field values, byte sequences into hex strings — and
every other value (None, booleans, ints, strings, and plain dicts, which
carry no `__dict__`) passes through unchanged. -/
theorem format_result_structure :
    (∀ xs, formatResult (.list xs) = .list (xs.map formatResult)) ∧
    (∀ xs, formatResult (.tuple xs) = .list (xs.map formatResult)) ∧
    (∀ fs, formatResult (.objWithDict fs)
        = .dict (fs.map (fun p => (p.1, formatResult p.2)))) ∧
    (∀ bs, formatResult (.bytes bs) = .str (bytesHex bs)) ∧
    formatResult .none = .none ∧
    (∀ b, formatResult (.bool b) = .bool b) ∧
    (∀ n, formatResult (.int n) = .int n) ∧
    (∀ s, formatResult (.str s) = .str s) ∧
    (∀ fs, formatResult (.dict fs) = .dict fs) :=
  ⟨fun xs => by rw [formatResult, formatResultList_eq_map],
   fun xs => by rw [formatResult, formatResultList_eq_map],
   fun fs => by rw [formatResult, formatResultFields_eq_map],
   fun bs => rfl, rfl, fun b => rfl, fun n => rfl, fun s => rfl,
   fun fs => rfl⟩


/-! ### C7: gas padding -/

/-- Environment whose gas estimate is `2^53 + 4`. -/
def envBigGas : Env :=
  { sampleEnv with estimateGasResult := fun _ _ => .ok 9007199254740996 }

set_option maxRecDepth 8000 in
/-- C7 counterexample: at estimate `g = 2^53 + 4 = 9007199254740996` the
write call assembles gas `int(g * 1.2) = 10808639105689194` under binary64
float arithmetic, while the exact integer part of `1.2 * g` is
`⌊6g/5⌋ = 10808639105689195`: the padded limit is NOT the claimed value. -/
theorem gas_padding_counterexample :
    call_write_function envBigGas "transfer" [] "0xCAFE" Option.none
        = .ok (.txDict {
            sender := "0xCAFE"
            gas := 10808639105689194
            gasPrice := 50000000000
            nonce := 7
            data := "0xdeadbeef" }) ∧
    6 * 9007199254740996 / 5 = 10808639105689195 ∧
    (10808639105689194 : Nat) ≠ 10808639105689195 :=
  ⟨rfl, by norm_num, by norm_num⟩

/-- C7 (amended): for a write call without a (truthy) gas limit, the gas
placed in the assembled transaction is `int(est * 1.2)` computed in
binary64 floats, which equals the exact 20%-padded value `⌊6·est/5⌋` for
every estimate up to `2^49` — realistic gas values — but not in general
(see the counterexample above). -/
theorem gas_padding_bounded (env : Env) (fn : String)
    (params : List (String × PyVal)) (aa : String) (est nonce : Nat)
    (hcl : env.contractLoaded = true) (hhf : env.hasFunction fn = true)
    (hpk : env.privateKey = Option.none)
    (hest : env.estimateGasResult fn aa = .ok est)
    (hnonce : env.getTransactionCount aa = .ok nonce)
    (hbuild : env.buildCheck fn params = .ok ())
    (hb : est ≤ 2 ^ 49) :
    call_write_function env fn params aa Option.none
      = .ok (.txDict {
          sender := aa
          gas := 6 * est / 5
          gasPrice := gweiToWei env.maxGasPriceGwei
          nonce := nonce
          data := env.encodeData fn params }) := by
  have hgl : resolveGasLimit env fn aa Option.none = .ok (6 * est / 5) := by
    unfold resolveGasLimit
    rw [show gasLimitFalsy Option.none = true from rfl, if_pos rfl, hest]
    show Except.ok (pyIntMul12 est) = Except.ok (6 * est / 5)
    rw [pyIntMul12_eq_of_le est hb]
  unfold call_write_function
  rw [hcl, hhf]
  simp only [Bool.not_true, Bool.false_eq_true, if_false]
  rw [hgl, hnonce, hbuild, hpk]
  rfl

/-- Witness for C7 (amended): estimate 100000 is padded to 120000 gas. -/
theorem gas_padding_bounded_witness :
    call_write_function sampleEnv "transfer" [] "0xCAFE" Option.none
      = .ok (.txDict {
          sender := "0xCAFE"
          gas := 120000
          gasPrice := 50000000000
          nonce := 7
          data := "0xdeadbeef" }) := by
  have hmain := gas_padding_bounded sampleEnv "transfer" [] "0xCAFE" 100000 7
    rfl rfl rfl rfl rfl rfl (by norm_num)
  simpa using hmain

/-! ### C10: an explicit gas limit of 0 is treated as absent -/

/-- C10: a write call with an explicit gas limit of 0 behaves exactly as
one with no limit: the 0 is falsy, so gas estimation runs and the padded
estimate (not the supplied 0) ends up in the assembled transaction. -/
theorem zero_gas_limit_estimates (env : Env) (fn : String)
    (params : List (String × PyVal)) (aa : String) :
    call_write_function env fn params aa (some 0)
        = call_write_function env fn params aa Option.none ∧
    (∀ est, env.estimateGasResult fn aa = .ok est →
      resolveGasLimit env fn aa (some 0) = .ok (pyIntMul12 est)) ∧
    (env.contractLoaded = true → env.hasFunction fn = true →
     env.privateKey = Option.none →
     ∀ est nonce, env.estimateGasResult fn aa = .ok est →
       env.getTransactionCount aa = .ok nonce →
       env.buildCheck fn params = .ok () →
       call_write_function env fn params aa (some 0)
         = .ok (.txDict {
             sender := aa
             gas := pyIntMul12 est
             gasPrice := gweiToWei env.maxGasPriceGwei
             nonce := nonce
             data := env.encodeData fn params })) := by
  refine ⟨rfl, ?_, ?_⟩
  · intro est hest
    unfold resolveGasLimit
    rw [show gasLimitFalsy (some 0) = true from rfl, if_pos rfl, hest]
    rfl
  · intro hcl hhf hpk est nonce hest hnonce hbuild
    have hgl : resolveGasLimit env fn aa (some 0) = .ok (pyIntMul12 est) := by
      unfold resolveGasLimit
      rw [show gasLimitFalsy (some 0) = true from rfl, if_pos rfl, hest]
      rfl
    unfold call_write_function
    rw [hcl, hhf]
    simp only [Bool.not_true, Bool.false_eq_true, if_false]
    rw [hgl, hnonce, hbuild, hpk]
    rfl

/-- Witness for C10: with estimate 100000 the resolved limit for an
explicit 0 gas limit is the padded 120000. -/
theorem zero_gas_limit_estimates_witness :
    call_write_function sampleEnv "transfer" [] "0xCAFE" (some 0)
        = call_write_function sampleEnv "transfer" [] "0xCAFE" Option.none ∧
    resolveGasLimit sampleEnv "transfer" "0xCAFE" (some 0) = .ok 120000 := by
  refine ⟨(zero_gas_limit_estimates sampleEnv "transfer" [] "0xCAFE").1, ?_⟩
  rw [(zero_gas_limit_estimates sampleEnv "transfer" [] "0xCAFE").2.1
    100000 rfl]
  rfl


/-! ### C9: uniform envelopes, no retries -/

/-- A response body satisfies the envelope invariant when it is a JSON
object carrying a boolean `success` field, and carrying a string
`message` field whenever `success` is false. -/
def envelopeOk (j : Json) : Prop :=
  ∃ fields, j = Json.obj fields ∧
    (("success", Json.bool true) ∈ fields ∨
     (("success", Json.bool false) ∈ fields ∧
      ∃ m, ("message", Json.str m) ∈ fields))

theorem envelopeOk_mkFail (m : String) : envelopeOk (mkFail m) :=
  ⟨_, rfl, Or.inr ⟨List.mem_cons_self _ _, m, by simp [mkFail]⟩⟩

theorem envelopeOk_success (rest : List (String × Json)) :
    envelopeOk (Json.obj (("success", Json.bool true) :: rest)) :=
  ⟨_, rfl, Or.inl (List.mem_cons_self _ _)⟩

theorem connect_wallet_shape (body : Option (Option String)) :
    (∃ rest, connect_wallet body
        = ⟨Json.obj (("success", Json.bool true) :: rest), 0⟩) ∨
    (∃ m, connect_wallet body = ⟨mkFail m, 0⟩) := by
  cases body with
  | none => exact Or.inr ⟨_, rfl⟩
  | some aa =>
      simp only [connect_wallet]
      cases hf : strFalsy aa with
      | true =>
          rw [if_neg (by decide)]
          exact Or.inr ⟨_, rfl⟩
      | false =>
          rw [if_pos (by decide)]
          exact Or.inl ⟨_, rfl⟩

theorem read_contract_shape (env : Env) (fn : String)
    (params : List (String × PyVal)) :
    (∃ rest, read_contract env fn params
        = ⟨Json.obj (("success", Json.bool true) :: rest), 1⟩) ∨
    (∃ m, read_contract env fn params = ⟨mkFail m, 1⟩) := by
  cases hcall : call_read_function env fn params with
  | ok r =>
      cases hj : pyToJson r with
      | some j =>
          exact Or.inl ⟨[("result", j)],
            by simp only [read_contract, hcall, hj]⟩
      | none =>
          exact Or.inr ⟨jsonifyErrMsg,
            by simp only [read_contract, hcall, hj]⟩
  | error e =>
      exact Or.inr ⟨e, by simp only [read_contract, hcall]⟩

theorem write_contract_shape (env : Env) (fn : String)
    (body : Option WriteBody) :
    (∃ rest, write_contract env fn body
        = ⟨Json.obj (("success", Json.bool true) :: rest), 1⟩) ∨
    (∃ m k, write_contract env fn body = ⟨mkFail m, k⟩ ∧ k ≤ 1) := by
  cases body with
  | none => exact Or.inr ⟨_, 0, rfl, by omega⟩
  | some data =>
      simp only [write_contract]
      cases hf : strFalsy data.account_address with
      | true =>
          rw [if_pos rfl]
          exact Or.inr ⟨_, 0, rfl, by omega⟩
      | false =>
          rw [if_neg (by decide)]
          cases call_write_function env fn data.params
              (data.account_address.getD "") Option.none with
          | ok wr => exact Or.inl ⟨_, rfl⟩
          | error e => exact Or.inr ⟨e, 1, rfl, by omega⟩

theorem transaction_route_shape (env : Env) (h : String) :
    (∃ rest, get_transaction_status_route env h
        = ⟨Json.obj (("success", Json.bool true) :: rest), 1⟩) ∨
    (∃ m, get_transaction_status_route env h = ⟨mkFail m, 1⟩) := by
  cases hs : get_transaction_status env h with
  | ok st =>
      exact Or.inl ⟨[("status", txStatusJson st)],
        by simp only [get_transaction_status_route, hs]⟩
  | error e =>
      exact Or.inr ⟨e, by simp only [get_transaction_status_route, hs]⟩

theorem events_route_shape (env : Env) (fb : Option String) :
    (∃ rest, get_contract_events_route env fb
        = ⟨Json.obj (("success", Json.bool true) :: rest), 1⟩) ∨
    (∃ m, get_contract_events_route env fb = ⟨mkFail m, 1⟩) := by
  cases hev : get_contract_events env (fb.getD "latest") "latest" with
  | ok events =>
      cases hj : eventsJson events with
      | some js =>
          exact Or.inl ⟨[("events", Json.arr js)],
            by simp only [get_contract_events_route, hev, hj]⟩
      | none =>
          exact Or.inr ⟨jsonifyErrMsg,
            by simp only [get_contract_events_route, hev, hj]⟩
  | error e =>
      exact Or.inr ⟨e, by simp only [get_contract_events_route, hev]⟩

theorem network_route_shape (env : Env) :
    (∃ rest, get_network_info_route env
        = ⟨Json.obj (("success", Json.bool true) :: rest), 1⟩) ∨
    (∃ m, get_network_info_route env = ⟨mkFail m, 1⟩) := by
  cases hn : get_network_info env with
  | ok info =>
      exact Or.inl ⟨[("network", networkInfoJson info)],
        by simp only [get_network_info_route, hn]⟩
  | error e =>
      exact Or.inr ⟨e, by simp only [get_network_info_route, hn]⟩

/-- C9: every route, on every environment and input, answers with a JSON
object carrying a boolean `success` field; every failure answer carries a
`message` string; and no route invokes the contract-access layer more
than once — nothing is retried.  The 404 and 500 handlers return the same
failure envelope. -/
theorem api_envelope_invariant :
    (∀ body, envelopeOk (connect_wallet body).body ∧
      (connect_wallet body).accessCalls ≤ 1) ∧
    (∀ env fn params, envelopeOk (read_contract env fn params).body ∧
      (read_contract env fn params).accessCalls ≤ 1) ∧
    (∀ env fn body, envelopeOk (write_contract env fn body).body ∧
      (write_contract env fn body).accessCalls ≤ 1) ∧
    (∀ env h, envelopeOk (get_transaction_status_route env h).body ∧
      (get_transaction_status_route env h).accessCalls ≤ 1) ∧
    (∀ env fb, envelopeOk (get_contract_events_route env fb).body ∧
      (get_contract_events_route env fb).accessCalls ≤ 1) ∧
    (∀ env, envelopeOk (get_network_info_route env).body ∧
      (get_network_info_route env).accessCalls ≤ 1) ∧
    envelopeOk not_found.1 ∧ envelopeOk internal_error.1 := by
  refine ⟨?_, ?_, ?_, ?_, ?_, ?_, envelopeOk_mkFail _, envelopeOk_mkFail _⟩
  · intro body
    rcases connect_wallet_shape body with ⟨rest, hb⟩ | ⟨m, hb⟩ <;> rw [hb]
    · exact ⟨envelopeOk_success rest, Nat.zero_le 1⟩
    · exact ⟨envelopeOk_mkFail m, Nat.zero_le 1⟩
  · intro env fn params
    rcases read_contract_shape env fn params with ⟨rest, hb⟩ | ⟨m, hb⟩ <;>
      rw [hb]
    · exact ⟨envelopeOk_success rest, Nat.le_refl 1⟩
    · exact ⟨envelopeOk_mkFail m, Nat.le_refl 1⟩
  · intro env fn body
    rcases write_contract_shape env fn body with ⟨rest, hb⟩ | ⟨m, k, hb, hk⟩ <;>
      rw [hb]
    · exact ⟨envelopeOk_success rest, Nat.le_refl 1⟩
    · exact ⟨envelopeOk_mkFail m, hk⟩
  · intro env h
    rcases transaction_route_shape env h with ⟨rest, hb⟩ | ⟨m, hb⟩ <;> rw [hb]
    · exact ⟨envelopeOk_success rest, Nat.le_refl 1⟩
    · exact ⟨envelopeOk_mkFail m, Nat.le_refl 1⟩
  · intro env fb
    rcases events_route_shape env fb with ⟨rest, hb⟩ | ⟨m, hb⟩ <;> rw [hb]
    · exact ⟨envelopeOk_success rest, Nat.le_refl 1⟩
    · exact ⟨envelopeOk_mkFail m, Nat.le_refl 1⟩
  · intro env
    rcases network_route_shape env with ⟨rest, hb⟩ | ⟨m, hb⟩ <;> rw [hb]
    · exact ⟨envelopeOk_success rest, Nat.le_refl 1⟩
    · exact ⟨envelopeOk_mkFail m, Nat.le_refl 1⟩

end NFTBackend
